import Mathlib

/-!
Verification of the graphdoc schema SDL renderer
(`src/plugins/document.schema/index.ts` of `@2fd/graphdoc`).

The renderer is the `SchemaPlugin` class: a family of pure functions turning a
parsed GraphQL schema model into annotated, cross-linked SDL text.  The class
methods are embedded here as top-level functions; `this.document` becomes an
explicit `Schema` argument and the inherited `this.url` cross-reference
resolver (from `lib/utility`, not part of the analysed sources) becomes an
explicit function argument of type `Resolver`.
-/

namespace Graphdoc

/-- Type reference: a named type possibly wrapped in List / NonNull modifiers,
mirroring the introspection shape used by `lib/interface`. -/
inductive TypeRef where
  | named (name : String)
  | list (ofType : TypeRef)
  | nonNull (ofType : TypeRef)
  deriving DecidableEq, Repr

/-- The six named-type kinds of the introspection model. -/
inductive Kind where
  | SCALAR
  | OBJECT
  | INTERFACE
  | UNION
  | ENUM
  | INPUT_OBJECT
  deriving DecidableEq, Repr

/-- Input value (argument or input field): name, optional description, type. -/
structure InputValue where
  name : String
  description : Option String := none
  type : TypeRef
  deriving DecidableEq, Repr

/-- Field of an object or interface type. -/
structure Field where
  name : String
  description : Option String := none
  args : List InputValue := []
  type : TypeRef
  isDeprecated : Bool := false
  deprecationReason : Option String := none
  deriving DecidableEq, Repr

/-- Enum value: name, optional description, deprecation data. -/
structure EnumValue where
  name : String
  description : Option String := none
  isDeprecated : Bool := false
  deprecationReason : Option String := none
  deriving DecidableEq, Repr

/-- Directive: name, optional description, arguments and location keywords. -/
structure Directive where
  name : String
  description : Option String := none
  args : List InputValue := []
  locations : List String := []
  deriving DecidableEq, Repr

/-- A named schema type.  Which of the sequence attributes are meaningful
depends on `kind`, as in the introspection model. -/
structure SchemaType where
  name : String
  kind : Kind
  description : Option String := none
  fields : List Field := []
  interfaces : List TypeRef := []
  possibleTypes : List TypeRef := []
  enumValues : List EnumValue := []
  inputFields : List InputValue := []
  deriving DecidableEq, Repr

/-- The schema root entity. -/
structure Schema where
  queryType : Option SchemaType := none
  mutationType : Option SchemaType := none
  subscriptionType : Option SchemaType := none
  types : List SchemaType := []
  directives : List Directive := []
  deriving DecidableEq, Repr

/-- The type reference denoting a schema type (used when a root type or an
interface is passed where a reference is expected). -/
def SchemaType.ref (t : SchemaType) : TypeRef := TypeRef.named t.name

/-- Modelled from the spec: the cross-reference resolver `this.url` inherited
from the `Plugin` base class in `lib/utility` (not among the analysed sources).
Per spec section 4.5 it maps a type reference to an optional navigable locator.
The TypeScript call sites may pass an absent root type through unchanged, so
the argument is optional as well. -/
def Resolver : Type := Option TypeRef → Option String

/-- Concatenation of a list of strings (the TypeScript `array.join('')`). -/
def concatAll : List String → String
  | [] => ""
  | s :: ss => s ++ concatAll ss

/-- Join with a separator (the TypeScript `array.join(sep)`). -/
def joinWith (sep : String) : List String → String
  | [] => ""
  | [s] => s
  | s :: ss => s ++ sep ++ joinWith sep ss

namespace html

/-- Modelled from the spec: inline keyword markup from `lib/utility`.  Spec
section 6 leaves the exact markup delimiters to the presentation layer; the
inline stylings are taken as bare text here. -/
def keyword (k : String) : String := k

/-- Modelled from the spec: inline property-name markup, taken as bare text. -/
def property (p : String) : String := p

/-- Modelled from the spec: inline literal-value markup, taken as bare text. -/
def value (v : String) : String := v

/-- Modelled from the spec: inline highlight markup, taken as bare text. -/
def highlight (t : String) : String := t

/-- Modelled from the spec: one comment line, prefixed per the host comment
syntax and wrapped in an explicit delimiter so that line structure is visible
in the output string. -/
def comment (c : String) : String := "<span class=\"comment\"># " ++ c ++ "</span>"

/-- Modelled from the spec: one physical output line, wrapped in an explicit
delimiter (the host renders lines as list items; spec section 4.6). -/
def line (code : String) : String := "<li>" ++ code ++ "</li>"

/-- Modelled from the spec: one level of indentation applied to a line's
content (spec section 4.6), wrapped in an explicit delimiter. -/
def tab (code : String) : String := "<span class=\"tab\">" ++ code ++ "</span>"

/-- Modelled from the spec: render a possibly wrapped type reference, keeping
the full `[...]` / `!` decoration as text and linking the named type at the
bottom to the supplied locator, or rendering plain text when no locator is
supplied (spec section 4.5). -/
def useIdentifier : TypeRef → Option String → String
  | TypeRef.list t, u => "[" ++ useIdentifier t u ++ "]"
  | TypeRef.nonNull t, u => useIdentifier t u ++ "!"
  | TypeRef.named n, some u => "<a href=\"" ++ u ++ "\">" ++ n ++ "</a>"
  | TypeRef.named n, none => n

/-- Modelled from the spec: render a declared type's own name, taken as bare
text like the other inline stylings. -/
def identifier (t : SchemaType) : String := t.name

end html

/-- `MAX_CODE_LEN`, the fixed wrap width. -/
def wrapWidth : Nat := 80

/-- Split a character list into space-separated words (`acc` holds the
current word reversed). -/
def wordsAux : List Char → List Char → List String
  | [], acc => if acc.isEmpty then [] else [String.mk acc.reverse]
  | c :: cs, acc =>
      if c = ' ' then
        if acc.isEmpty then wordsAux cs [] else String.mk acc.reverse :: wordsAux cs []
      else wordsAux cs (c :: acc)

/-- The space-separated words of a string. -/
def stringWords (s : String) : List String := wordsAux s.data []

/-- Greedy line filling: extend the current line while the next word fits
within the width, otherwise emit the line and start a new one. -/
def greedy (width : Nat) : String → List String → List String
  | cur, [] => [cur]
  | cur, w :: ws =>
      if cur.length + 1 + w.length ≤ width then greedy width (cur ++ " " ++ w) ws
      else cur :: greedy width w ws

/-- Modelled from the spec: the `word-wrap` dependency as described in spec
section 4.4 — text greedily wrapped at word boundaries to the width limit,
never splitting a word; a single overlong word occupies its own line.  The
TypeScript wraps to a newline-separated string and immediately splits it back
into lines; the composition is embedded directly as a line list. -/
def wrapText (s : String) : List String :=
  match stringWords s with
  | [] => []
  | w :: ws => greedy wrapWidth w ws

/-- `description`: wrap a description and render each line as a comment; a
missing or empty (falsy) description yields no lines. -/
def description : Option String → List String
  | some s => if s = "" then [] else (wrapText s).map html.comment
  | none => []

/-- `argumentDescription`: description comment for one argument, substituting
the highlighted `[Not documented]` fallback exactly when the description is
null. -/
def argumentDescription (arg : InputValue) : List String :=
  let desc := match arg.description with
    | none => "[" ++ html.highlight "Not documented" ++ "]"
    | some d => d
  description (some (html.highlight arg.name ++ ": " ++ desc))

/-- `argumentsDescription`: the `Arguments` comment block for a field or
directive, folding each argument's description onto the header comment.  The
TypeScript receives the field or directive and reads only its `args`. -/
def argumentsDescription (args : List InputValue) : List String :=
  if args.length = 0 then []
  else args.foldl (fun descriptions arg => descriptions ++ argumentDescription arg) [html.comment "Arguments"]

/-- `deprecated`: the deprecation marker of a field or enum value.  The
TypeScript receives the field or enum value and reads only `isDeprecated` and
`deprecationReason`; a missing or empty (falsy) reason yields the bare
keyword. -/
def deprecated (isDeprecated : Bool) (deprecationReason : Option String) : String :=
  if !isDeprecated then ""
  else
    match deprecationReason with
    | none => html.keyword "@deprecated"
    | some r =>
        if r = "" then html.keyword "@deprecated"
        else
          html.keyword "@deprecated" ++ "( reason: " ++ html.value ("\"" ++ r ++ "\" ") ++ " )"

/-- `inputValue`: one argument or input field — its description lines followed
by its `name: Type` declaration, each line indented. -/
def inputValue (u : Resolver) (arg : InputValue) : String :=
  let argDescription := description arg.description
  concatAll
    ((argDescription ++
        [html.property arg.name ++ ": " ++ html.useIdentifier arg.type (u (some arg.type))]).map
      (fun l => html.line (html.tab l)))

/-- `arguments`: the parenthesized argument list of a field or directive, or
empty text when there are no arguments.  The TypeScript receives the field or
directive and reads only its `args`. -/
def arguments (u : Resolver) (args : List InputValue) : String :=
  if args.length = 0 then ""
  else "(" ++ joinWith ", " (args.map (inputValue u)) ++ ")"

/-- The declaration line of a field: name, argument list, type reference and
deprecation marker. -/
def fieldDecl (u : Resolver) (f : Field) : String :=
  html.property f.name ++ arguments u f.args ++ ": " ++
    html.useIdentifier f.type (u (some f.type)) ++ " " ++
    deprecated f.isDeprecated f.deprecationReason

/-- The line list built by `field` before indentation: description block, a
blank comment when both blocks are present, the arguments block, then the
declaration. -/
def fieldLines (u : Resolver) (f : Field) : List String :=
  let fieldDescription := description f.description
  let argsDescription := argumentsDescription f.args
  let fd :=
    if 0 < fieldDescription.length ∧ 0 < argsDescription.length then
      fieldDescription ++ [html.comment ""]
    else fieldDescription
  fd ++ argsDescription ++ [fieldDecl u f]

/-- `field`: one rendered field, every line indented. -/
def field (u : Resolver) (f : Field) : String :=
  concatAll ((fieldLines u f).map (fun l => html.line (html.tab l)))

/-- `fields`: a blank line followed by the rendered fields separated by blank
lines. -/
def fields (u : Resolver) (t : SchemaType) : String :=
  html.line "" ++ joinWith (html.line "") (t.fields.map (field u))

/-- `inputValues`: rendered input fields, each indented on its own line. -/
def inputValues (u : Resolver) (ivs : List InputValue) : String :=
  concatAll (ivs.map (fun iv => html.line (html.tab (inputValue u iv))))

/-- `scalar` renderer. -/
def scalar (t : SchemaType) : String :=
  html.line (html.keyword "scalar" ++ " " ++ html.identifier t)

/-- `object` renderer: header with an `implements` clause exactly when the
joined interface list is non-empty text, fields, closing brace. -/
def object (u : Resolver) (t : SchemaType) : String :=
  let ifaces := joinWith ", " (t.interfaces.map (fun i => html.useIdentifier i (u (some i))))
  let implement :=
    if ifaces.length = 0 then ""
    else " " ++ html.keyword "implements" ++ " " ++ ifaces
  html.line (html.keyword "type" ++ " " ++ html.identifier t ++ implement ++ " \x7b") ++
    fields u t ++ html.line "\x7d"

/-- `interfaces` renderer (an interface type declaration). -/
def interfaces (u : Resolver) (t : SchemaType) : String :=
  html.line (html.keyword "interface" ++ " " ++ html.identifier t ++ " \x7b") ++
    fields u t ++ html.line "\x7d"

/-- `union` renderer: a single line joining the possible types with ` | ` in
declared order. -/
def union (u : Resolver) (t : SchemaType) : String :=
  html.line
    (html.keyword "union" ++ " " ++ html.identifier t ++ " = " ++
      joinWith " | " (t.possibleTypes.map (fun p => html.useIdentifier p (u (some p)))))

/-- `enum` renderer: header, then per value a blank line, its description and
its declaration with deprecation marker, then the closing brace. -/
def enum (t : SchemaType) : String :=
  html.line (html.keyword "enum" ++ " " ++ html.identifier t ++ " \x7b") ++
    concatAll
      ((t.enumValues.foldl
          (fun lines ev =>
            lines ++ [""] ++ description ev.description ++
              [html.property ev.name ++ deprecated ev.isDeprecated ev.deprecationReason])
          []).map (fun l => html.line (html.tab l))) ++
    html.line "\x7d"

/-- `inputObject` renderer. -/
def inputObject (u : Resolver) (t : SchemaType) : String :=
  html.line (html.keyword "input" ++ " " ++ html.identifier t ++ " \x7b") ++
    inputValues u t.inputFields ++ html.line "\x7d"

/-- `directive` renderer: one line with the directive name, arguments and
locations joined with ` | `. -/
def directive (u : Resolver) (d : Directive) : String :=
  html.line
    (html.keyword "directive" ++ " " ++ html.keyword ("@" ++ d.name) ++
      arguments u d.args ++ " on " ++
      joinWith " | " (d.locations.map html.keyword))

/-- `schema` renderer: the root `schema` block, emitting one indented line per
defined root operation type, each preceded by that root type's description.
The subscription line resolves its locator from `mutationType`, exactly as the
TypeScript does. -/
def schema (u : Resolver) (s : Schema) : String :=
  let d0 := html.line (html.keyword "schema" ++ " \x7b")
  let d1 :=
    match s.queryType with
    | none => d0
    | some q =>
        d0 ++ html.line "" ++
          concatAll ((description q.description).map (fun l => html.line (html.tab l))) ++
          html.line (html.tab
            (html.property "query" ++ ": " ++ html.useIdentifier q.ref (u (some q.ref))))
  let d2 :=
    match s.mutationType with
    | none => d1
    | some m =>
        d1 ++ html.line "" ++
          concatAll ((description m.description).map (fun l => html.line (html.tab l))) ++
          html.line (html.tab
            (html.property "mutation" ++ ": " ++ html.useIdentifier m.ref (u (some m.ref))))
  let d3 :=
    match s.subscriptionType with
    | none => d2
    | some b =>
        d2 ++ html.line "" ++
          concatAll ((description b.description).map (fun l => html.line (html.tab l))) ++
          html.line (html.tab
            (html.property "subscription" ++ ": " ++
              html.useIdentifier b.ref (u (Option.map SchemaType.ref s.mutationType))))
  joinWith (html.line "") [d3 ++ html.line "\x7d"]

/-- `code`: the dispatcher.  A falsy target — no name at all or the empty
string (`if (!buildForType)`) — renders the root schema; otherwise the
directives are searched first, then the types (routed by kind); a name
matching neither fails with the `Unexpected type` error naming the target. -/
def code (u : Resolver) (doc : Schema) : Option String → Except String String
  | none => Except.ok (schema u doc)
  | some buildForType =>
      if buildForType = "" then Except.ok (schema u doc)
      else
      match doc.directives.find? (fun d => d.name == buildForType) with
      | some d => Except.ok (directive u d)
      | none =>
          match doc.types.find? (fun t => t.name == buildForType) with
          | some t =>
              match t.kind with
              | Kind.SCALAR => Except.ok (scalar t)
              | Kind.OBJECT => Except.ok (object u t)
              | Kind.INTERFACE => Except.ok (interfaces u t)
              | Kind.UNION => Except.ok (union u t)
              | Kind.ENUM => Except.ok (enum t)
              | Kind.INPUT_OBJECT => Except.ok (inputObject u t)
          | none => Except.error ("Unexpected type: " ++ buildForType)

/-! ### String reasoning helpers (specification side) -/

/-- `needle` occurs contiguously inside `hay`. -/
def HasSubstr (hay needle : String) : Prop :=
  ∃ pre post : String, hay = pre ++ needle ++ post

theorem hasSubstr_iff (hay needle : String) :
    HasSubstr hay needle ↔ needle.data <:+: hay.data := by
  constructor
  · rintro ⟨pre, post, h⟩
    exact ⟨pre.data, post.data, by rw [h]; simp [String.data_append, List.append_assoc]⟩
  · rintro ⟨pre, post, h⟩
    refine ⟨String.mk pre, String.mk post, String.ext ?_⟩
    simpa [String.data_append, List.append_assoc] using h.symm

instance (hay needle : String) : Decidable (HasSubstr hay needle) :=
  decidable_of_iff _ (hasSubstr_iff hay needle).symm

theorem strAppend_assoc (a b c : String) : a ++ b ++ c = a ++ (b ++ c) :=
  String.ext (by simp [String.data_append, List.append_assoc])

theorem strAppend_empty (s : String) : s ++ "" = s :=
  String.ext (by simp [String.data_append])

theorem strEmpty_iff_data (s : String) : s = "" ↔ s.data = [] := by
  constructor
  · intro h; rw [h]
  · intro h; exact String.ext (by rw [h])

theorem strAppend_ne_empty_left (a b : String) (h : a ≠ "") : a ++ b ≠ "" := by
  intro he
  apply h
  rw [strEmpty_iff_data] at he ⊢
  rw [String.data_append] at he
  exact (List.append_eq_nil.mp he).1

theorem strLength_eq_zero_iff (s : String) : s.length = 0 ↔ s = "" := by
  rw [strEmpty_iff_data]
  exact List.length_eq_zero

theorem joinWith_ne_empty (sep : String) (l : List String) (hl : l ≠ [])
    (he : ∀ x ∈ l, x ≠ "") : joinWith sep l ≠ "" := by
  match l with
  | [] => exact absurd rfl hl
  | [x] => exact he x (by simp)
  | x :: y :: tl =>
      show x ++ sep ++ joinWith sep (y :: tl) ≠ ""
      exact strAppend_ne_empty_left _ _ (strAppend_ne_empty_left _ _ (he x (by simp)))

theorem hasSubstr_intro (hay a n b : String) (h : hay = a ++ n ++ b) :
    HasSubstr hay n := ⟨a, b, h⟩

/-- Strip the explicit markup delimiters, keeping only the text content. -/
def stripTagsAux : List Char → Bool → List Char
  | [], _ => []
  | c :: cs, true => if c = '>' then stripTagsAux cs false else stripTagsAux cs true
  | c :: cs, false => if c = '<' then stripTagsAux cs true else c :: stripTagsAux cs false

/-- The text content of a rendered fragment, with markup removed. -/
def stripTags (s : String) : String := String.mk (stripTagsAux s.data false)

/-- Whether the first list is a prefix of the second. -/
def isPrefixL : List Char → List Char → Bool
  | [], _ => true
  | _ :: _, [] => false
  | a :: xs, b :: ys => a == b && isPrefixL xs ys

/-- Number of positions of `hay` at which `needle` starts. -/
def countOccAux (needle : List Char) : List Char → Nat
  | [] => 0
  | c :: cs => (if isPrefixL needle (c :: cs) then 1 else 0) + countOccAux needle cs

/-- Number of occurrences (with overlap) of `needle` inside `hay`. -/
def countOcc (needle hay : String) : Nat := countOccAux needle.data hay.data

/-! ### Auxiliary lemmas about word wrapping -/

theorem wordsAux_ne_nil_of_acc (l : List Char) (acc : List Char) (h : acc ≠ []) :
    wordsAux l acc ≠ [] := by
  induction l generalizing acc with
  | nil =>
      simp only [wordsAux]
      rw [if_neg (by simpa [List.isEmpty_iff] using h)]
      simp
  | cons c cs ih =>
      simp only [wordsAux]
      by_cases hc : c = ' '
      · rw [if_pos hc, if_neg (by simpa [List.isEmpty_iff] using h)]
        simp
      · rw [if_neg hc]
        exact ih (c :: acc) (by simp)

theorem wordsAux_ne_nil (l : List Char) (acc : List Char)
    (h : ∃ c ∈ l, c ≠ ' ') : wordsAux l acc ≠ [] := by
  induction l generalizing acc with
  | nil => simp at h
  | cons c cs ih =>
      simp only [wordsAux]
      by_cases hc : c = ' '
      · rw [if_pos hc]
        have hcs : ∃ x ∈ cs, x ≠ ' ' := by
          obtain ⟨x, hx, hne⟩ := h
          rcases List.mem_cons.mp hx with rfl | hmem
          · exact absurd hc hne
          · exact ⟨x, hmem, hne⟩
        by_cases ha : acc.isEmpty
        · rw [if_pos ha]; exact ih [] hcs
        · rw [if_neg ha]; simp
      · rw [if_neg hc]
        exact wordsAux_ne_nil_of_acc cs (c :: acc) (by simp)

theorem greedy_ne_nil (width : Nat) (cur : String) (ws : List String) :
    greedy width cur ws ≠ [] := by
  induction ws generalizing cur with
  | nil => simp [greedy]
  | cons w tl ih =>
      simp only [greedy]
      by_cases hfit : cur.length + 1 + w.length ≤ width
      · rw [if_pos hfit]; exact ih (cur ++ " " ++ w)
      · rw [if_neg hfit]; simp

theorem description_ne_nil_of_char (s : String) (c : Char) (hc : c ∈ s.data)
    (hcs : c ≠ ' ') : description (some s) ≠ [] := by
  have hne : s ≠ "" := by
    intro h
    rw [strEmpty_iff_data] at h
    rw [h] at hc
    exact absurd hc (List.not_mem_nil c)
  have hwords : stringWords s ≠ [] := wordsAux_ne_nil s.data [] ⟨c, hc, hcs⟩
  simp only [description, if_neg hne]
  intro hmap
  rw [List.map_eq_nil_iff] at hmap
  unfold wrapText at hmap
  rcases hw : stringWords s with _ | ⟨w, ws⟩
  · exact hwords hw
  · rw [hw] at hmap
    exact greedy_ne_nil wrapWidth w ws hmap

/-! ### Concrete example data used to instantiate the claims -/

/-- A resolver supplying no locator for any reference. -/
def uNone : Resolver := fun _ => none

/-- An undocumented argument `id: ID`. -/
def idArg : InputValue := { name := "id", type := TypeRef.named "ID" }

/-- A schema whose only directive is `skip` and only type is `Query`. -/
def exDoc : Schema :=
  { types := [{ name := "Query", kind := Kind.OBJECT }], directives := [{ name := "skip" }] }

/-- A schema in which the name `Query` is both a directive name and a type name. -/
def exDoc2 : Schema :=
  { types := [{ name := "Query", kind := Kind.OBJECT }],
    directives := [{ name := "Query", locations := ["FIELD"] }] }

/-! ### Claim theorems -/

/-- Claim C2 (amended): for every schema and every *non-empty* target name
matching neither a directive name nor a type name, the dispatcher fails with
the unknown-target error that identifies the requested name — it neither
returns empty text nor fails with an unrelated error.  (The empty target name
is falsy and renders the root schema block instead; see the
counterexample.) -/
theorem code_unknown_target (u : Resolver) (doc : Schema) (nm : String) (hne : nm ≠ "")
    (hd : ∀ d ∈ doc.directives, d.name ≠ nm)
    (ht : ∀ t ∈ doc.types, t.name ≠ nm) :
    code u doc (some nm) = Except.error ("Unexpected type: " ++ nm) := by
  have h1 : doc.directives.find? (fun d => d.name == nm) = none :=
    List.find?_eq_none.mpr (fun d hdm => by simpa using hd d hdm)
  have h2 : doc.types.find? (fun t => t.name == nm) = none :=
    List.find?_eq_none.mpr (fun t htm => by simpa using ht t htm)
  simp [code, hne, h1, h2]

theorem code_unknown_target_witness :
    (("Nope" : String) ≠ "" ∧
      (∀ d ∈ exDoc.directives, d.name ≠ "Nope") ∧ (∀ t ∈ exDoc.types, t.name ≠ "Nope")) ∧
      code uNone exDoc (some "Nope") = Except.error ("Unexpected type: " ++ "Nope") :=
  ⟨⟨by decide, by decide, by decide⟩,
    code_unknown_target uNone exDoc "Nope" (by decide) (by decide) (by decide)⟩

/-- The empty target name matches neither collection of `exDoc`, yet the
dispatcher does not fail: the empty string is falsy, so the program renders
the whole root schema block instead of raising the unknown-target error. -/
theorem code_unknown_target_counterexample :
    (∀ d ∈ exDoc.directives, d.name ≠ "") ∧ (∀ t ∈ exDoc.types, t.name ≠ "") ∧
      code uNone exDoc (some "") = Except.ok (schema uNone exDoc) ∧
      code uNone exDoc (some "") ≠ Except.error ("Unexpected type: " ++ "") := by
  refine ⟨by decide, by decide, rfl, ?_⟩
  rw [show code uNone exDoc (some "") = Except.ok (schema uNone exDoc) from rfl]
  simp

/-- Claim C10 (amended): for every *non-empty* target name, the dispatcher
searches the directive collection before the type collection, so a name
matching both is rendered by the directive renderer and the result does not
depend on the type collection at all.  (The empty target name is falsy and
renders the root schema block instead; see the counterexample.) -/
theorem code_directive_priority (u : Resolver) (doc : Schema) (nm : String) (hne : nm ≠ "")
    (hd : ∃ d ∈ doc.directives, d.name = nm)
    (ht : ∃ t ∈ doc.types, t.name = nm) :
    ∃ d, doc.directives.find? (fun x => x.name == nm) = some d ∧
      code u doc (some nm) = Except.ok (directive u d) ∧
      ∀ ts : List SchemaType,
        code u { doc with types := ts } (some nm) = Except.ok (directive u d) := by
  have hsome : (doc.directives.find? (fun x => x.name == nm)).isSome := by
    rw [List.find?_isSome]
    obtain ⟨d, hdm, hde⟩ := hd
    exact ⟨d, hdm, by simpa using hde⟩
  obtain ⟨d, hfind⟩ := Option.isSome_iff_exists.mp hsome
  exact ⟨d, hfind, by simp [code, hne, hfind], fun ts => by simp [code, hne, hfind]⟩

theorem code_directive_priority_witness :
    (("Query" : String) ≠ "" ∧
      (∃ d ∈ exDoc2.directives, d.name = "Query") ∧ (∃ t ∈ exDoc2.types, t.name = "Query")) ∧
      (∃ d, exDoc2.directives.find? (fun x => x.name == "Query") = some d ∧
        code uNone exDoc2 (some "Query") = Except.ok (directive uNone d) ∧
        ∀ ts : List SchemaType,
          code uNone { exDoc2 with types := ts } (some "Query") = Except.ok (directive uNone d)) :=
  ⟨⟨by decide, by decide, by decide⟩,
    code_directive_priority uNone exDoc2 "Query" (by decide) (by decide) (by decide)⟩

/-- A schema in which the empty string is both a directive name and a type
name. -/
def exDocEmpty : Schema :=
  { types := [{ name := "", kind := Kind.OBJECT }], directives := [{ name := "" }] }

/-- The empty target name matches both a directive and a type of
`exDocEmpty`, yet the dispatcher uses neither renderer: the empty string is
falsy, so the program renders the whole root schema block, not the matching
directive. -/
theorem code_directive_priority_counterexample :
    (∃ d ∈ exDocEmpty.directives, d.name = "") ∧ (∃ t ∈ exDocEmpty.types, t.name = "") ∧
      code uNone exDocEmpty (some "") = Except.ok (schema uNone exDocEmpty) ∧
      ∀ d ∈ exDocEmpty.directives,
        code uNone exDocEmpty (some "") ≠ Except.ok (directive uNone d) := by
  refine ⟨by decide, by decide, rfl, ?_⟩
  intro d hd h
  rw [show code uNone exDocEmpty (some "") = Except.ok (schema uNone exDocEmpty) from rfl] at h
  rcases List.mem_singleton.mp hd with rfl
  exact absurd (Except.ok.inj h) (by decide)

/-- Claim C3: an empty argument sequence renders as empty text (no
parentheses); a non-empty one renders as the argument renderings in declared
order, comma-space-joined, inside one pair of parentheses; an undescribed
argument renders as its `name: Type` pair, and in particular one argument
`id: ID` renders (as text content) `(id: ID)`. -/
theorem arguments_rendering :
    (∀ (u : Resolver) (args : List InputValue), args = [] → arguments u args = "") ∧
    (∀ (u : Resolver) (args : List InputValue), args ≠ [] →
      arguments u args = "(" ++ joinWith ", " (args.map (inputValue u)) ++ ")") ∧
    (∀ (u : Resolver) (a : InputValue), a.description = none →
      inputValue u a =
        html.line (html.tab
          (html.property a.name ++ ": " ++ html.useIdentifier a.type (u (some a.type))))) ∧
    stripTags (arguments uNone [idArg]) = "(id: ID)" := by
  refine ⟨?_, ?_, ?_, ?_⟩
  · intro u args h; subst h; rfl
  · intro u args h
    simp [arguments, List.length_eq_zero, h]
  · intro u a h
    simp [inputValue, description, h, concatAll, strAppend_empty]
  · decide

theorem arguments_rendering_witness :
    (([] : List InputValue) = [] ∧ arguments uNone ([] : List InputValue) = "") ∧
      (([idArg] : List InputValue) ≠ [] ∧
        arguments uNone [idArg] =
          "(" ++ joinWith ", " (([idArg] : List InputValue).map (inputValue uNone)) ++ ")") :=
  ⟨⟨rfl, arguments_rendering.1 uNone [] rfl⟩,
   ⟨by decide, arguments_rendering.2.1 uNone [idArg] (by decide)⟩⟩

/-- Claim C4: no marker when not deprecated; the bare keyword and no `reason:`
clause when deprecated without a (truthy) reason; and when deprecated with a
non-empty reason, a marker carrying the reason verbatim inside plain
surrounding quotes together with the `reason:` clause. -/
theorem deprecated_marker :
    (∀ r : Option String, deprecated false r = "") ∧
    (deprecated true none = html.keyword "@deprecated" ∧
      ¬ HasSubstr (deprecated true none) "reason:") ∧
    (deprecated true (some "") = html.keyword "@deprecated" ∧
      ¬ HasSubstr (deprecated true (some "")) "reason:") ∧
    (∀ r : String, r ≠ "" →
      deprecated true (some r) =
        html.keyword "@deprecated" ++ "( reason: " ++ html.value ("\"" ++ r ++ "\" ") ++ " )" ∧
      HasSubstr (deprecated true (some r)) ("\"" ++ r ++ "\"") ∧
      HasSubstr (deprecated true (some r)) "reason:") := by
  refine ⟨fun r => rfl, ⟨rfl, by decide⟩, ⟨rfl, by decide⟩, ?_⟩
  intro r h
  have heq : deprecated true (some r) =
      html.keyword "@deprecated" ++ "( reason: " ++ html.value ("\"" ++ r ++ "\" ") ++ " )" := by
    simp [deprecated, h]
  have hqsplit : ("\" " : String).data = ("\"" : String).data ++ (" " : String).data := by decide
  have hrsplit : ("( reason: " : String).data =
      ("( " : String).data ++ ("reason:" : String).data ++ (" " : String).data := by decide
  refine ⟨heq, ?_, ?_⟩
  · refine hasSubstr_intro _ (html.keyword "@deprecated" ++ "( reason: ") _ (" " ++ " )") ?_
    rw [heq]
    apply String.ext
    simp [html.keyword, html.value, String.data_append, List.append_assoc, hqsplit]
  · refine hasSubstr_intro _ (html.keyword "@deprecated" ++ "( ") _
      (" " ++ html.value ("\"" ++ r ++ "\" ") ++ " )") ?_
    rw [heq]
    apply String.ext
    simp [html.keyword, html.value, String.data_append, List.append_assoc, hrsplit]

theorem deprecated_marker_witness :
    ("use ACTIVE" : String) ≠ "" ∧
      (deprecated true (some "use ACTIVE") =
        html.keyword "@deprecated" ++ "( reason: " ++
          html.value ("\"" ++ "use ACTIVE" ++ "\" ") ++ " )" ∧
      HasSubstr (deprecated true (some "use ACTIVE")) ("\"" ++ "use ACTIVE" ++ "\"") ∧
      HasSubstr (deprecated true (some "use ACTIVE")) "reason:") :=
  ⟨by decide, deprecated_marker.2.2.2 "use ACTIVE" (by decide)⟩

/-- Claim C5: constructs without a description render an empty description
line sequence, except arguments, whose missing description is replaced by the
literal `[Not documented]` fallback, so an argument description block is never
omitted. -/
theorem description_fallback :
    (∀ d : Option String, d = none ∨ d = some "" → description d = []) ∧
    (∀ arg : InputValue, arg.description = none →
      argumentDescription arg = description (some (arg.name ++ ": " ++ "[Not documented]")) ∧
      argumentDescription arg ≠ []) ∧
    argumentDescription idArg = [html.comment "id: [Not documented]"] := by
  refine ⟨?_, ?_, by decide⟩
  · rintro d (rfl | rfl) <;> rfl
  · intro arg h
    have hlit : ("[" : String) ++ "Not documented" ++ "]" = "[Not documented]" := by decide
    have heq : argumentDescription arg =
        description (some (arg.name ++ ": " ++ "[Not documented]")) := by
      simp only [argumentDescription, h, html.highlight]
      rw [hlit]
    refine ⟨heq, ?_⟩
    rw [heq]
    refine description_ne_nil_of_char _ 'N' ?_ (by decide)
    rw [String.data_append]
    exact List.mem_append_right _ (by decide)

theorem description_fallback_witness :
    idArg.description = none ∧
      (argumentDescription idArg =
          description (some (idArg.name ++ ": " ++ "[Not documented]")) ∧
        argumentDescription idArg ≠ []) :=
  ⟨rfl, description_fallback.2.1 idArg rfl⟩

/-- The named type at the bottom of a type reference. -/
def TypeRef.baseName : TypeRef → String
  | TypeRef.named n => n
  | TypeRef.list t => t.baseName
  | TypeRef.nonNull t => t.baseName

theorem strAppend_ne_empty_right (a b : String) (h : b ≠ "") : a ++ b ≠ "" := by
  intro he
  apply h
  rw [strEmpty_iff_data] at he ⊢
  rw [String.data_append] at he
  exact (List.append_eq_nil.mp he).2

theorem useIdentifier_ne_empty (r : TypeRef) (o : Option String) (h : r.baseName ≠ "") :
    html.useIdentifier r o ≠ "" := by
  cases r with
  | named n =>
      cases o with
      | none => simpa [html.useIdentifier, TypeRef.baseName] using h
      | some u => exact strAppend_ne_empty_right _ _ (by decide)
  | list t => exact strAppend_ne_empty_right _ _ (by decide)
  | nonNull t => exact strAppend_ne_empty_right _ _ (by decide)

/-- An object type implementing nothing. -/
def exObjPlain : SchemaType :=
  { name := "Foo", kind := Kind.OBJECT, fields := [{ name := "bar", type := TypeRef.named "Int" }] }

/-- An object type implementing the interfaces `A` and `B`, in that order. -/
def exObjAB : SchemaType :=
  { name := "Foo", kind := Kind.OBJECT, interfaces := [TypeRef.named "A", TypeRef.named "B"],
    fields := [{ name := "bar", type := TypeRef.named "Int" }] }

set_option maxRecDepth 4096 in
/-- Claim C6: an object type with an empty interface list renders its header
without any `implements` clause; with a non-empty interface list (of named
interfaces) the header carries `implements` followed by the interface
renderings, comma-space-joined in declared order. -/
theorem object_implements_clause :
    (∀ (u : Resolver) (t : SchemaType), t.interfaces = [] →
      object u t =
        html.line (html.keyword "type" ++ " " ++ html.identifier t ++ " \x7b") ++
          fields u t ++ html.line "\x7d") ∧
    (∀ (u : Resolver) (t : SchemaType), t.interfaces ≠ [] →
      (∀ r ∈ t.interfaces, TypeRef.baseName r ≠ "") →
      object u t =
        html.line (html.keyword "type" ++ " " ++ html.identifier t ++
            (" " ++ html.keyword "implements" ++ " " ++
              joinWith ", "
                (t.interfaces.map (fun i => html.useIdentifier i (u (some i))))) ++
            " \x7b") ++
          fields u t ++ html.line "\x7d") ∧
    (¬ HasSubstr (object uNone exObjPlain) "implements") ∧
    HasSubstr (object uNone exObjAB) "implements A, B" := by
  refine ⟨?_, ?_, by decide, by decide⟩
  · intro u t h
    simp [object, h, joinWith, strAppend_empty]
  · intro u t h hn
    have hne : joinWith ", "
        (t.interfaces.map (fun i => html.useIdentifier i (u (some i)))) ≠ "" := by
      apply joinWith_ne_empty
      · simpa using h
      · intro x hx
        obtain ⟨r, hr, rfl⟩ := List.mem_map.mp hx
        exact useIdentifier_ne_empty r _ (hn r hr)
    simp only [object]
    rw [if_neg (fun hc => hne ((strLength_eq_zero_iff _).mp hc))]

theorem object_implements_clause_witness :
    (exObjAB.interfaces ≠ [] ∧ ∀ r ∈ exObjAB.interfaces, TypeRef.baseName r ≠ "") ∧
      object uNone exObjAB =
        html.line (html.keyword "type" ++ " " ++ html.identifier exObjAB ++
            (" " ++ html.keyword "implements" ++ " " ++
              joinWith ", "
                (exObjAB.interfaces.map (fun i => html.useIdentifier i (uNone (some i))))) ++
            " \x7b") ++
          fields uNone exObjAB ++ html.line "\x7d" :=
  ⟨⟨by decide, by decide⟩,
    object_implements_clause.2.1 uNone exObjAB (by decide) (by decide)⟩

/-- A resolver linking `Cat` and `Dog` to their documentation pages. -/
def uPet : Resolver := fun r =>
  match r with
  | some (TypeRef.named n) =>
      if n = "Cat" then some "cat.html" else if n = "Dog" then some "dog.html" else none
  | _ => none

/-- The union type `Pet` with possible types `Cat` and `Dog`, in that order. -/
def petType : SchemaType :=
  { name := "Pet", kind := Kind.UNION,
    possibleTypes := [TypeRef.named "Cat", TypeRef.named "Dog"] }

/-- Claim C7: a union renders as one line joining the cross-linked possible
types with ` | ` in declared order; in particular `Pet` with possible types
`[Cat, Dog]` renders (as text content) `union Pet = Cat | Dog`, with both
member names carrying their locators. -/
theorem union_rendering :
    (∀ (u : Resolver) (t : SchemaType),
      union u t =
        html.line (html.keyword "union" ++ " " ++ html.identifier t ++ " = " ++
          joinWith " | "
            (t.possibleTypes.map (fun p => html.useIdentifier p (u (some p)))))) ∧
    stripTags (union uPet petType) = "union Pet = Cat | Dog" ∧
    HasSubstr (union uPet petType) "<a href=\"cat.html\">Cat</a>" ∧
    HasSubstr (union uPet petType) "<a href=\"dog.html\">Dog</a>" :=
  ⟨fun u t => rfl, by decide, by decide, by decide⟩

/-- A field with both a description and (undocumented) arguments. -/
def exBothField : Field :=
  { name := "f", description := some "doc", args := [idArg], type := TypeRef.named "Int" }

/-- A field with a description but no arguments. -/
def exDescOnlyField : Field :=
  { name := "f", description := some "doc", type := TypeRef.named "Int" }

/-- A field with arguments but no description. -/
def exArgsOnlyField : Field :=
  { name := "f", args := [idArg], type := TypeRef.named "Int" }

/-- Claim C8: when a field has both a non-empty description block and a
non-empty arguments-description block, exactly one blank comment line is
inserted between them; when at most one block is present no separator is
inserted. -/
theorem field_blank_separator :
    (∀ (u : Resolver) (f : Field),
      description f.description ≠ [] → argumentsDescription f.args ≠ [] →
      fieldLines u f =
        description f.description ++ [html.comment ""] ++ argumentsDescription f.args ++
          [fieldDecl u f]) ∧
    (∀ (u : Resolver) (f : Field),
      description f.description = [] ∨ argumentsDescription f.args = [] →
      fieldLines u f =
        description f.description ++ argumentsDescription f.args ++ [fieldDecl u f]) ∧
    (fieldLines uNone exBothField).count (html.comment "") = 1 ∧
    (fieldLines uNone exDescOnlyField).count (html.comment "") = 0 ∧
    (fieldLines uNone exArgsOnlyField).count (html.comment "") = 0 ∧
    field uNone exBothField =
      concatAll ((fieldLines uNone exBothField).map (fun l => html.line (html.tab l))) := by
  refine ⟨?_, ?_, by decide, by decide, by decide, rfl⟩
  · intro u f h1 h2
    simp only [fieldLines]
    rw [if_pos ⟨List.length_pos.mpr h1, List.length_pos.mpr h2⟩]
  · intro u f h
    simp only [fieldLines]
    rw [if_neg ?_]
    rintro ⟨ha, hb⟩
    rcases h with h | h
    · rw [h] at ha; simp at ha
    · rw [h] at hb; simp at hb

theorem field_blank_separator_witness :
    (description exBothField.description ≠ [] ∧ argumentsDescription exBothField.args ≠ []) ∧
      fieldLines uNone exBothField =
        description exBothField.description ++ [html.comment ""] ++
          argumentsDescription exBothField.args ++ [fieldDecl uNone exBothField] :=
  ⟨⟨by decide, by decide⟩, field_blank_separator.1 uNone exBothField (by decide) (by decide)⟩

/-- One root-operation block of the rendered `schema` declaration: empty when
the root type is undefined, otherwise a blank line, the root type's wrapped
description indented as comments, and the indented `label: Type` line whose
locator is requested for `target`. -/
def rootPart (u : Resolver) (label : String) (root : Option SchemaType)
    (target : Option TypeRef) : String :=
  match root with
  | none => ""
  | some t =>
      html.line "" ++
        concatAll ((description t.description).map (fun l => html.line (html.tab l))) ++
        html.line (html.tab
          (html.property label ++ ": " ++ html.useIdentifier t.ref (u target)))

theorem schema_eq (u : Resolver) (s : Schema) :
    schema u s =
      html.line (html.keyword "schema" ++ " \x7b") ++
        rootPart u "query" s.queryType (Option.map SchemaType.ref s.queryType) ++
        rootPart u "mutation" s.mutationType (Option.map SchemaType.ref s.mutationType) ++
        rootPart u "subscription" s.subscriptionType (Option.map SchemaType.ref s.mutationType) ++
        html.line "\x7d" := by
  obtain ⟨q, m, b, ts, ds⟩ := s
  cases q <;> cases m <;> cases b <;>
    (apply String.ext
     simp [schema, rootPart, joinWith, String.data_append, List.append_assoc])

theorem rootPart_congr (u u2 : Resolver) (label : String) (root : Option SchemaType)
    (target : Option TypeRef) (h : u target = u2 target) :
    rootPart u label root target = rootPart u2 label root target := by
  cases root <;> simp [rootPart, h]

/-- The query root type of the running example. -/
def qT : SchemaType := { name := "Query", kind := Kind.OBJECT }

/-- The mutation root type of the running example. -/
def mT : SchemaType := { name := "Mutation", kind := Kind.OBJECT }

/-- The subscription root type of the running example. -/
def sT : SchemaType := { name := "Subscription", kind := Kind.OBJECT }

/-- A schema defining all three root operation types. -/
def exRoots : Schema :=
  { queryType := some qT, mutationType := some mT, subscriptionType := some sT }

/-- A resolver linking every named reference to its documentation page. -/
def uW : Resolver := fun r =>
  match r with
  | some (TypeRef.named n) => some (n ++ ".doc.html")
  | _ => none

/-- A resolver agreeing with `uW` everywhere except on the `Subscription`
reference. -/
def uW2 : Resolver := fun r =>
  match r with
  | some (TypeRef.named n) =>
      if n = "Subscription" then some "elsewhere.html" else some (n ++ ".doc.html")
  | _ => none

/-- Claim C1: whenever a subscription root type is defined, the rendered
subscription line displays the subscription type's identifier while its
cross-reference locator is requested for the mutation type; consequently the
rendered schema block does not change when the resolver is modified anywhere
away from the query and mutation root references. -/
theorem subscription_locator_from_mutation (s : Schema) (u u2 : Resolver) (b : SchemaType)
    (hb : s.subscriptionType = some b)
    (hq : u (Option.map SchemaType.ref s.queryType) =
      u2 (Option.map SchemaType.ref s.queryType))
    (hm : u (Option.map SchemaType.ref s.mutationType) =
      u2 (Option.map SchemaType.ref s.mutationType)) :
    HasSubstr (schema u s)
      (html.tab (html.property "subscription" ++ ": " ++
        html.useIdentifier b.ref (u (Option.map SchemaType.ref s.mutationType)))) ∧
    schema u s = schema u2 s := by
  constructor
  · rw [schema_eq, hb]
    refine hasSubstr_intro _
      (html.line (html.keyword "schema" ++ " \x7b") ++
        rootPart u "query" s.queryType (Option.map SchemaType.ref s.queryType) ++
        rootPart u "mutation" s.mutationType (Option.map SchemaType.ref s.mutationType) ++
        (html.line "" ++
          concatAll ((description b.description).map (fun l => html.line (html.tab l))) ++
          "<li>")) _
      ("</li>" ++ html.line "\x7d") ?_
    apply String.ext
    simp [rootPart, html.line, String.data_append, List.append_assoc]
  · rw [schema_eq, schema_eq,
      rootPart_congr u u2 "query" _ _ hq, rootPart_congr u u2 "mutation" _ _ hm,
      rootPart_congr u u2 "subscription" _ _ hm]

set_option maxRecDepth 8192 in
theorem subscription_locator_from_mutation_witness :
    (exRoots.subscriptionType = some sT ∧
      uW (Option.map SchemaType.ref exRoots.queryType) =
        uW2 (Option.map SchemaType.ref exRoots.queryType) ∧
      uW (Option.map SchemaType.ref exRoots.mutationType) =
        uW2 (Option.map SchemaType.ref exRoots.mutationType)) ∧
    (HasSubstr (schema uW exRoots)
        (html.tab (html.property "subscription" ++ ": " ++
          html.useIdentifier sT.ref (uW (Option.map SchemaType.ref exRoots.mutationType)))) ∧
      schema uW exRoots = schema uW2 exRoots) :=
  ⟨⟨by decide, by decide, by decide⟩,
    subscription_locator_from_mutation exRoots uW uW2 sT (by decide) (by decide) (by decide)⟩

/-- The query root type of the description example. -/
def qTD : SchemaType := { name := "Query", kind := Kind.OBJECT, description := some "The root" }

/-- A schema defining only a (documented) query root type. -/
def exQOnly : Schema := { queryType := some qTD }

/-- A schema defining a query and a subscription root but no mutation root. -/
def exQS : Schema := { queryType := some qT, subscriptionType := some sT }

set_option maxRecDepth 8192 in
/-- Claim C9: the root-schema renderer emits a `schema` block with, per root
operation type, exactly one indented `query:` / `mutation:` / `subscription:`
line precisely when that root type is defined, each preceded by the root
type's wrapped description as indented comment lines, and no line for an
undefined root operation. -/
theorem schema_root_block :
    (∀ (u : Resolver) (s : Schema),
      schema u s =
        html.line (html.keyword "schema" ++ " \x7b") ++
          rootPart u "query" s.queryType (Option.map SchemaType.ref s.queryType) ++
          rootPart u "mutation" s.mutationType (Option.map SchemaType.ref s.mutationType) ++
          rootPart u "subscription" s.subscriptionType
            (Option.map SchemaType.ref s.mutationType) ++
          html.line "\x7d") ∧
    schema uNone exQOnly =
      "<li>schema \x7b</li><li></li><li><span class=\"tab\"><span class=\"comment\"># The root</span></span></li><li><span class=\"tab\">query: Query</span></li><li>\x7d</li>" ∧
    countOcc "query: " (schema uNone exRoots) = 1 ∧
    countOcc "mutation: " (schema uNone exRoots) = 1 ∧
    countOcc "subscription: " (schema uNone exRoots) = 1 ∧
    countOcc "query: " (schema uNone exQS) = 1 ∧
    countOcc "mutation: " (schema uNone exQS) = 0 ∧
    countOcc "subscription: " (schema uNone exQS) = 1 :=
  ⟨schema_eq, by decide, by decide, by decide, by decide, by decide, by decide, by decide⟩

end Graphdoc
